import Mathlib

/-
Verification of the measurement-data-to-Excel tool in app.py.

The development shallowly embeds the core of app.py:
  * parse_data            (semicolon-separated line parser),
  * extract_target_values (DISTANCE / INT-CIRCLE value extraction),
  * validate_date_format  (date-string shape check),
  * write_to_cell / update_excel_file (merged-cell-aware spreadsheet writer),
  * the output-file naming expressions of the two UI variants.

Python floats are modelled as exact rationals together with an explicit
IEEE-754 binary64 rounding function (round to nearest, ties to even) for the
normal range; Python round(x, 2) is modelled as correctly rounded decimal
rounding (ties to even) followed by binary64 rounding, matching CPython.
Python dicts are modelled as insertion-ordered association lists with
overwrite-in-place assignment.  A raised exception that the code does not
catch is modelled with Except; openpyxl cell access on a syntactically
invalid reference is modelled as a parse failure.
-/

namespace App

/-! ## Python string primitives (ASCII fragment used by the program) -/

/-- Whitespace characters stripped by Python str.strip. -/
def isPySpace (c : Char) : Bool :=
  c == ' ' || c == '\t' || c == '\n' || c == '\r' || c == '\x0b' || c == '\x0c'

/-- Python str.strip: remove leading and trailing whitespace. -/
def pyStrip (s : String) : String :=
  String.mk (((s.toList.dropWhile isPySpace).reverse.dropWhile isPySpace).reverse)

/-- Split a character list on a separator character, keeping empty pieces
(Python str.split with an explicit separator). -/
def splitOnCharAux (c : Char) : List Char → List Char → List (List Char)
  | [], acc => [acc.reverse]
  | x :: xs, acc =>
    if x = c then acc.reverse :: splitOnCharAux c xs []
    else splitOnCharAux c xs (x :: acc)

/-- Python str.split(sep) for a one-character separator. -/
def splitOnChar (c : Char) (s : String) : List String :=
  (splitOnCharAux c s.toList []).map String.mk

/-- Python line splitting.  Modelled as splitting on the newline character;
a trailing newline yields one extra empty piece, which parse_data skips,
and a carriage return left at the end of a line is removed by strip. -/
def pySplitlines (s : String) : List String := splitOnChar '\n' s

/-- Decimal digits of a numeric token, most significant first. -/
def digitsToNat (l : List Char) : Nat :=
  l.foldl (fun a c => a * 10 + (c.toNat - 48)) 0

/-! ## Exact rational arithmetic

Python floats are modelled by exact rational values.  The arithmetic is
implemented from first principles on normalized numerator / denominator
pairs (with a fuel-driven Euclidean gcd), so that every operation reduces
inside the Lean kernel; values are normalized at construction, hence
structural equality is value equality. -/

/-- Euclidean gcd with explicit fuel; the first argument strictly decreases
at every step, so fuel a + 1 always suffices. -/
def gcdFuel : Nat → Nat → Nat → Nat
  | 0, _, b => b
  | fuel + 1, a, b => if a = 0 then b else gcdFuel fuel (b % a) a

/-- Greatest common divisor. -/
def natGcd (a b : Nat) : Nat := gcdFuel (a + 1) a b

/-- An exact rational: normalized numerator and positive denominator. -/
structure Q where
  num : ℤ
  den : ℕ
  deriving DecidableEq

/-- Build a normalized rational from a numerator and a positive denominator
(a zero denominator cannot arise in this development and falls back to 0). -/
def Q.norm (n : ℤ) (d : ℕ) : Q :=
  if d = 0 then ⟨0, 1⟩
  else
    let g := natGcd n.natAbs d
    ⟨n / (g : ℤ), d / g⟩

/-- Rational from an integer. -/
def Q.ofInt (n : ℤ) : Q := ⟨n, 1⟩

/-- Addition. -/
def Q.add (x y : Q) : Q :=
  Q.norm (x.num * (y.den : ℤ) + y.num * (x.den : ℤ)) (x.den * y.den)

/-- Negation. -/
def Q.neg (x : Q) : Q := ⟨-x.num, x.den⟩

/-- Subtraction. -/
def Q.sub (x y : Q) : Q := x.add y.neg

/-- Multiplication. -/
def Q.mul (x y : Q) : Q := Q.norm (x.num * y.num) (x.den * y.den)

/-- Division (division by zero yields 0; unreachable here). -/
def Q.div (x y : Q) : Q :=
  let n := x.num * (y.den : ℤ)
  let d := (x.den : ℤ) * y.num
  if d < 0 then Q.norm (-n) (-d).toNat else Q.norm n d.toNat

/-- Reciprocal. -/
def Q.inv (x : Q) : Q := (Q.ofInt 1).div x

/-- Strict order by cross multiplication (denominators are positive). -/
def Q.blt (x y : Q) : Bool := x.num * (y.den : ℤ) < y.num * (x.den : ℤ)

/-- Non-strict order by cross multiplication. -/
def Q.ble (x y : Q) : Bool := x.num * (y.den : ℤ) ≤ y.num * (x.den : ℤ)

/-- Floor as an integer. -/
def Q.floor (x : Q) : ℤ := Int.fdiv x.num (x.den : ℤ)

/-- Absolute value (Python abs, exact on floats). -/
def Q.qabs (x : Q) : Q := if x.num < 0 then x.neg else x

/-! ## Model of Python floats

A float is the exact rational value of a binary64 number.  fl rounds a
rational to the nearest binary64 value (ties to even) in the normal range;
overflow and subnormals are outside the magnitudes this application
handles and are not modelled. -/

/-- Fuel-driven base-2 logarithm on Nat (the fuel only bounds the exponent;
200 covers the binary64 range). -/
def log2fuel : Nat → Nat → Nat
  | 0, _ => 0
  | fuel + 1, n => if 2 ≤ n then log2fuel fuel (n / 2) + 1 else 0

/-- Round a rational to the nearest integer, ties to even. -/
def roundHalfEvenQ (q : Q) : ℤ :=
  let f := Q.floor q
  let r := q.sub (Q.ofInt f)
  if r.blt ⟨1, 2⟩ then f
  else if Q.blt ⟨1, 2⟩ r then f + 1
  else if f % 2 = 0 then f else f + 1

/-- Integer power of two as a rational. -/
def qpow2 (k : ℤ) : Q :=
  if 0 ≤ k then Q.ofInt (2 ^ k.toNat) else ⟨1, 2 ^ (-k).toNat⟩

/-- Floor of the base-2 logarithm of a positive rational. -/
def ilog2 (q : Q) : ℤ :=
  if Q.ble (Q.ofInt 1) q then (log2fuel 200 (Q.floor q).toNat : ℤ)
  else
    let e2 : ℤ := (log2fuel 200 (Q.floor q.inv).toNat : ℤ)
    if q = qpow2 (-e2) then -e2 else -e2 - 1

/-- Binary64 rounding of a positive rational: 53-bit significand, round to
nearest, ties to even. -/
def flPos (q : Q) : Q :=
  let scale := qpow2 (ilog2 q - 52)
  (Q.ofInt (roundHalfEvenQ (q.div scale))).mul scale

/-- Binary64 rounding of a rational (normal range). -/
def fl (q : Q) : Q :=
  if q.num = 0 then ⟨0, 1⟩ else if 0 < q.num then flPos q else (flPos q.neg).neg

/-- Exact rational value of a decimal token shaped like the numeric pattern
of parse_data: optional minus sign, digits, optional dot and digits. -/
def decCharsToRat (cs : List Char) : Q :=
  let core := fun (l : List Char) =>
    let intD := l.takeWhile Char.isDigit
    let rest := l.dropWhile Char.isDigit
    let fracD := match rest with | '.' :: t => t | _ => ([] : List Char)
    (Q.ofInt (digitsToNat intD)).add
      (Q.div (Q.ofInt (digitsToNat fracD)) (Q.ofInt (10 ^ fracD.length)))
  match cs with
  | '-' :: t => (core t).neg
  | _ => core cs

/-- Python float(token) for a token matching the numeric pattern: the
binary64 value nearest to the exact decimal value. -/
def pyFloat (s : String) : Q := fl (decCharsToRat s.toList)

/-- CPython round(x, 2) on a float x: correctly rounded to two decimal
digits (ties to even on the exact value of x), then back to binary64. -/
def pyRound2 (x : Q) : Q :=
  fl ((Q.ofInt (roundHalfEvenQ (x.mul (Q.ofInt 100)))).div (Q.ofInt 100))

/-- Full match of the numeric pattern of parse_data, an optional minus sign,
one or more digits, then optionally a dot and any number of digits
(the pattern is anchored at both ends; digits are modelled as ASCII). -/
def matchesNumericChars (cs : List Char) : Bool :=
  let body := fun (l : List Char) =>
    let ds := l.takeWhile Char.isDigit
    let rest := l.dropWhile Char.isDigit
    !ds.isEmpty &&
      (match rest with
       | [] => true
       | '.' :: t => t.all Char.isDigit
       | _ => false)
  match cs with
  | '-' :: t => body t
  | _ => body cs

/-- Numeric-pattern test on a string token. -/
def matchesNumeric (s : String) : Bool := matchesNumericChars s.toList

/-! ## Values and Python dicts -/

/-- A cell of a parsed row: either a Python float or a string token. -/
inductive Value where
  | num (q : Q)
  | str (s : String)
  deriving DecidableEq

/-- Assignment d[k] = v on an insertion-ordered association list:
overwrite in place if the key exists, else append at the end
(Python dict semantics). -/
def assocSet {κ α : Type} [DecidableEq κ] : List (κ × α) → κ → α → List (κ × α)
  | [], k, v => [(k, v)]
  | (k', v') :: rest, k, v =>
    if k' = k then (k, v) :: rest else (k', v') :: assocSet rest k v

/-- Lookup d[k]: the value at the first (hence only) occurrence of the key. -/
def assocLookup {κ α : Type} [DecidableEq κ] : List (κ × α) → κ → Option α
  | [], _ => none
  | (k', v') :: rest, k => if k' = k then some v' else assocLookup rest k

/-- Python membership test k in d. -/
def assocContains {κ α : Type} [DecidableEq κ] (l : List (κ × α)) (k : κ) : Bool :=
  (assocLookup l k).isSome

/-- One parsed record: the row dictionary built by parse_data. -/
abbrev Row := List (String × Value)

/-! ## parse_data -/

/-- Column-name schema chosen by parse_data for each object type; unknown
types get generic names Val1..ValN for the N supplied values. -/
def colsFor (t : String) (n : Nat) : List String :=
  if t = "PLANE" then ["Method", "X", "Y", "Z", "A", "B", "C", "", "D", "Dev"]
  else if t = "CIRCLE" then ["Method", "X", "Y", "Z", "I", "J", "K", "", "Radius", "Dev"]
  else if t = "PT-COMP" then ["Method", "X", "Y", "Z"]
  else if t = "DISTANCE" then ["", "X", "Y", "Z", "", "", "", "", "Distance"]
  else if t = "CONE" then ["Method", "X", "Y", "Z", "I", "J", "K", "", "Half-Angle", "Dev"]
  else if t = "INT-CIRCLE" then ["", "X", "Y", "Z", "I", "J", "K", "", "Radius"]
  else if t = "SYM-POINT" then ["", "X", "Y", "Z"]
  else (List.range n).map (fun i => "Val" ++ Nat.repr (i + 1))

/-- One step of the value loop of parse_data: for position i with token val,
if i is inside the schema, the schema name is non-blank and the token is
non-empty, store the token under the schema name, as a float when it
matches the numeric pattern and as the original string otherwise.
(float conversion cannot fail once the pattern matched, so the except
branch of the source is unreachable.) -/
def assignVal (cols : List String) (row : Row) (p : Nat × String) : Row :=
  if p.1 < cols.length ∧ cols.getD p.1 "" ≠ "" ∧ p.2 ≠ "" then
    (if matchesNumeric p.2 then assocSet row (cols.getD p.1 "") (Value.num (pyFloat p.2))
     else assocSet row (cols.getD p.1 "") (Value.str p.2))
  else row

/-- Row built from the semicolon-separated parts of one line: the first
part is the ID, the second the type; the remaining parts are stripped and
assigned by position against the schema of the type. -/
def parseRow (parts : List String) : Row :=
  ((parts.drop 2).map pyStrip).enum.foldl
    (assignVal (colsFor (parts.getD 1 "") ((parts.drop 2).map pyStrip).length))
    [("ID", Value.str (parts.getD 0 "")), ("Type", Value.str (parts.getD 1 ""))]

/-- Parse one input line into a row, or skip it: empty after stripping, or
fewer than two semicolon-separated parts. -/
def parseLine (line : String) : Option Row :=
  if pyStrip line = "" then none
  else if (splitOnChar ';' (pyStrip line)).length < 2 then none
  else some (parseRow (splitOnChar ';' (pyStrip line)))

/-- parse_data of app.py: parse every line, keeping rows in input order. -/
def parse_data (content : String) : List Row :=
  (pySplitlines content).filterMap parseLine

/-! ## extract_target_values -/

/-- Exceptions that extract_target_values can let escape: a TypeError from
abs or round applied to a string value, or a KeyError from indexing a dict
without a Type key (parse_data rows always have one). -/
inductive PyErr where
  | typeError
  | keyError
  deriving DecidableEq

/-- Python equality of a row value against a string literal: string values
compare by contents, float values are never equal to a string. -/
def valueEqStr : Value → String → Bool
  | Value.str s, t => s == t
  | Value.num _, _ => false

/-- Python str(v) == target for the fixed target ids "3", "2", "1", "4":
for a string value this is string equality; str of a Python float always
contains a dot or an exponent, so it never equals a bare digit id. -/
def idEqStr : Value → String → Bool
  | Value.str s, t => s == t
  | Value.num _, _ => false

/-- Collection loop of extract_target_values: walk the rows once, gathering
DISTANCE items (id value, round(abs(X), 2)) and INT-CIRCLE values
(round(Radius, 2)) in input order.  abs of a string X or round of a string
Radius raises TypeError; a row without a Type key raises KeyError. -/
def collectAux : List Row → List (Value × Q) → List Q →
    Except PyErr (List (Value × Q) × List Q)
  | [], ds, ics => Except.ok (ds, ics)
  | item :: rest, ds, ics =>
    match assocLookup item "Type" with
    | none => Except.error PyErr.keyError
    | some ty =>
      if valueEqStr ty "DISTANCE" then
        match assocLookup item "X", assocLookup item "ID" with
        | some x, some idv =>
          (match x with
           | Value.num q => collectAux rest (ds ++ [(idv, pyRound2 q.qabs)]) ics
           | Value.str _ => Except.error PyErr.typeError)
        | _, _ => collectAux rest ds ics
      else if valueEqStr ty "INT-CIRCLE" then
        match assocLookup item "Radius" with
        | some (Value.num q) => collectAux rest ds (ics ++ [pyRound2 q])
        | some (Value.str _) => Except.error PyErr.typeError
        | none => collectAux rest ds ics
      else collectAux rest ds ics

/-- Inner loop of the reordering pass: value of the first collected item
whose id, as a string, equals the target id. -/
def findFirstMatch (tid : String) : List (Value × Q) → Option Q
  | [] => none
  | (idv, v) :: rest => if idEqStr idv tid then some v else findFirstMatch tid rest

/-- Reordering pass of extract_target_values: walk the fixed priority list
and take, for each target id, the first matching item; ids with no match
contribute nothing. -/
def orderDistances (items : List (Value × Q)) : List Q :=
  (["3", "2", "1", "4"] : List String).filterMap (fun tid => findFirstMatch tid items)

/-- extract_target_values of app.py. -/
def extract_target_values (data : List Row) : Except PyErr (List Q × List Q) :=
  match collectAux data [] [] with
  | Except.error e => Except.error e
  | Except.ok (ds, ics) => Except.ok (orderDistances ds, ics)

/-! ## Specification-side description of the distance reordering (used for
the refinement statement of claim C1; this definition follows the words of
the spec, not the code) -/

/-- Wording of the spec: a row is the source of the value for target id tid
when it is a DISTANCE record carrying an X and an ID whose string form
equals tid. -/
def isDistTargetRow (tid : String) (row : Row) : Bool :=
  (match assocLookup row "Type" with
   | some ty => valueEqStr ty "DISTANCE"
   | none => false) &&
  assocContains row "X" &&
  (match assocLookup row "ID" with
   | some idv => idEqStr idv tid
   | none => false)

/-- Wording of the spec: the value contributed by target id tid is
round(abs(X), 2) of the first matching DISTANCE record, nothing if there is
no match (or the X found is not numeric). -/
def specDistValue (data : List Row) (tid : String) : Option Q :=
  (data.find? (isDistTargetRow tid)).bind (fun row =>
    match assocLookup row "X" with
    | some (Value.num q) => some (pyRound2 q.qabs)
    | _ => none)

/-- Wording of the spec: iterate the fixed priority list, each id
contributing its value or nothing. -/
def specDistanceValues (data : List Row) : List Q :=
  (["3", "2", "1", "4"] : List String).filterMap (specDistValue data)

/-- Rows on which the collection loop cannot raise: a DISTANCE row with both
X and ID present must carry a numeric X, an INT-CIRCLE row with Radius
present must carry a numeric Radius. -/
def rowExtractSafe (row : Row) : Bool :=
  match assocLookup row "Type" with
  | none => true
  | some ty =>
    if valueEqStr ty "DISTANCE" then
      match assocLookup row "X", assocLookup row "ID" with
      | some (Value.str _), some _ => false
      | _, _ => true
    else if valueEqStr ty "INT-CIRCLE" then
      match assocLookup row "Radius" with
      | some (Value.str _) => false
      | _ => true
    else true

/-! ## validate_date_format -/

/-- Consume exactly n decimal digits from the front of a character list. -/
def takeDigits : Nat → List Char → Option (List Char)
  | 0, l => some l
  | _ + 1, [] => none
  | n + 1, c :: t => if c.isDigit then takeDigits n t else none

/-- Consume one slash from the front of a character list. -/
def matchSlash : List Char → Option (List Char)
  | [] => none
  | c :: t => if c = '/' then some t else none

/-- Anchored match of the date pattern: four digits, slash, two digits,
slash, two digits, end of string. -/
def matchesDate (l : List Char) : Bool :=
  match takeDigits 4 l with
  | none => false
  | some r1 =>
    match matchSlash r1 with
    | none => false
    | some r2 =>
      match takeDigits 2 r2 with
      | none => false
      | some r3 =>
        match matchSlash r3 with
        | none => false
        | some r4 =>
          match takeDigits 2 r4 with
          | none => false
          | some r5 => r5.isEmpty

/-- Modelled from the spec: validate_date_format of app.py.  In src/app.py
the closing characters of the pattern string literal on line 131 are missing
(the line is truncated mid-literal and the body of another function is
spliced in; the return statement reappears on line 406), so the pattern
anchor is restored from the spec: false for the empty string, otherwise an
anchored match of the date pattern. -/
def validate_date_format (s : String) : Bool :=
  if s = "" then false else matchesDate s.toList

/-- Wording of the spec: a string of shape digits-4, slash, digits-2, slash,
digits-2 and nothing else (no calendar-validity check). -/
def dateShape (s : String) : Prop :=
  ∃ y m d : List Char,
    s.toList = y ++ '/' :: (m ++ '/' :: d) ∧
    y.length = 4 ∧ y.all Char.isDigit = true ∧
    m.length = 2 ∧ m.all Char.isDigit = true ∧
    d.length = 2 ∧ d.all Char.isDigit = true

/-! ## Output-file naming -/

/-- Dynamic output name built by the first UI variant of app.py
(the f-string on line 387). -/
def dynamic_filename (lotNum inspDate : String) : String :=
  "水平ノズル" ++ lotNum ++ "全箇所測定" ++ inspDate ++ ".xlsx"

/-- Output name used by the download button of the second UI variant of
app.py (line 711): the template file name with an updated marker in front. -/
def updatedDownloadName (templateName : String) : String :=
  "updated_" ++ templateName

/-! ## Worksheet and writer model

An openpyxl worksheet is modelled as a finite map from (row, column)
coordinates to values together with the list of merged ranges.  Writing and
re-serializing preserve this cell map, so reading a cell of the result
stands for reading the cell after the save / reload round trip.  A cell
inside a merged range other than its top-left anchor is a MergedCell in
openpyxl; indexing a worksheet with a syntactically invalid reference
raises, which write_to_cell catches. -/

/-- A merged range with its bounds (rows and columns are 1-based). -/
structure MergedRange where
  minRow : Nat
  minCol : Nat
  maxRow : Nat
  maxCol : Nat
  deriving DecidableEq

/-- Membership of a (row, column) coordinate in a merged range. -/
def MergedRange.containsCell (r : MergedRange) (rc : Nat × Nat) : Bool :=
  decide (r.minRow ≤ rc.1) && decide (rc.1 ≤ r.maxRow) &&
  decide (r.minCol ≤ rc.2) && decide (rc.2 ≤ r.maxCol)

/-- Top-left anchor cell of a merged range. -/
def MergedRange.anchor (r : MergedRange) : Nat × Nat := (r.minRow, r.minCol)

/-- An openpyxl worksheet: cell contents plus merged ranges. -/
structure Worksheet where
  cells : List ((Nat × Nat) × Value)
  merged : List MergedRange
  deriving DecidableEq

/-- Write a value at a coordinate. -/
def setCellVal (ws : Worksheet) (rc : Nat × Nat) (v : Value) : Worksheet :=
  { ws with cells := assocSet ws.cells rc v }

/-- Read the value at a coordinate. -/
def getCellVal (ws : Worksheet) (rc : Nat × Nat) : Option Value :=
  assocLookup ws.cells rc

/-- Numeric value of a 1-to-3-letter column name. -/
def lettersToCol (cs : List Char) : Nat :=
  cs.foldl (fun a c => a * 26 + (if c.isLower then c.toNat - 96 else c.toNat - 64)) 0

/-- Model of openpyxl A1-style reference parsing: one to three ASCII
letters then one or more digits, row between 1 and 1048576, column at most
16384; anything else raises, modelled as none. -/
def parseCellRef (s : String) : Option (Nat × Nat) :=
  let cs := s.toList
  let ls := cs.takeWhile Char.isAlpha
  let ds := cs.dropWhile Char.isAlpha
  if !ls.isEmpty && decide (ls.length ≤ 3) && !ds.isEmpty && ds.all Char.isDigit then
    let row := digitsToNat ds
    let col := lettersToCol ls
    if decide (1 ≤ row) && decide (row ≤ 1048576) && decide (col ≤ 16384)
    then some (row, col) else none
  else none

/-- True when the coordinate is a MergedCell in openpyxl: inside some merged
range but not that range's top-left anchor. -/
def isMergedCellAt (ws : Worksheet) (rc : Nat × Nat) : Bool :=
  ws.merged.any (fun r => r.containsCell rc && decide (rc ≠ r.anchor))

/-- write_to_cell of app.py (the helper inside update_excel_file, second
copy, lines 424-448): resolve the reference (an invalid one raises, is
caught, and yields False); for a merged cell, write the value to the
top-left anchor of the first merged range containing it, report a warning
and return True; if no range contains a merged cell the loop falls through
and the function returns None, falsy like False; for a plain cell write the
value in place and return True. -/
def write_to_cell (ws : Worksheet) (cellRef : String) (v : Value) :
    Worksheet × Bool :=
  match parseCellRef cellRef with
  | none => (ws, false)
  | some rc =>
    if isMergedCellAt ws rc then
      match ws.merged.find? (fun r => r.containsCell rc) with
      | some r => (setCellVal ws r.anchor v, true)
      | none => (ws, false)
    else (setCellVal ws rc v, true)

/-- An openpyxl workbook: named sheets and the index of the active sheet. -/
structure Workbook where
  sheets : List (String × Worksheet)
  active : Nat

/-- Sheet names in workbook order. -/
def Workbook.sheetnames (wb : Workbook) : List String := wb.sheets.map (fun p => p.1)

/-- Indexing a workbook by a sheet name known to be present. -/
def Workbook.getSheet (wb : Workbook) (n : String) : Worksheet :=
  (assocLookup wb.sheets n).getD ⟨[], []⟩

/-- The active sheet. -/
def Workbook.activeSheet (wb : Workbook) : Worksheet :=
  (wb.sheets.getD wb.active ("", ⟨[], []⟩)).2

/-- Sheet resolution of update_excel_file: the requested name when truthy
and present, else a sheet literally named sheet, else the active sheet. -/
def resolveSheet (wb : Workbook) (sheetName : Option String) : Worksheet :=
  let n := sheetName.getD ""
  if n ≠ "" ∧ wb.sheetnames.contains n then wb.getSheet n
  else if wb.sheetnames.contains "sheet" then wb.getSheet "sheet"
  else wb.activeSheet

/-- Conditional write of one of the fixed B-column cells: skipped when the
value is absent or empty (Python truthiness), otherwise one write_to_cell
call whose success increments the counter. -/
def writeOptB (ws : Worksheet) (count : Nat) (cellRef : String)
    (v : Option String) : Worksheet × Nat :=
  match v with
  | none => (ws, count)
  | some s =>
    if s = "" then (ws, count)
    else
      let r := write_to_cell ws cellRef (Value.str s)
      (r.1, if r.2 then count + 1 else count)

/-- The paired-write loops of update_excel_file: for each (value, cell)
pair, skip it when the stripped reference is empty, otherwise attempt the
write and count successes; a failed write changes nothing and the loop
continues. -/
def writeValueCells (acc : Worksheet × Nat) (pairs : List (Value × String)) :
    Worksheet × Nat :=
  pairs.foldl
    (fun acc p =>
      if pyStrip p.2 ≠ "" then
        let r := write_to_cell acc.1 (pyStrip p.2) p.1
        (r.1, if r.2 then acc.2 + 1 else acc.2)
      else acc)
    acc

/-- update_excel_file of app.py (second copy, lines 408-492): open the
workbook (a failed open is the only uncaught failure, modelled by the none
input), resolve the sheet, write the three optional B-column values, then
the distance pairs, then the int-circle pairs, and return the mutated sheet
with the success count (the source serializes the workbook to bytes at this
point; serialization preserves the cell map). -/
def update_excel_file (excelFile : Option Workbook)
    (distanceValues intCircleValues : List Q)
    (distanceCells intCircleCells : List String)
    (sheetName : Option String)
    (lotNumber inspectionDate lotPfx : Option String) :
    Option (Worksheet × Nat) :=
  match excelFile with
  | none => none
  | some wb =>
    let ws := resolveSheet wb sheetName
    let a1 := writeOptB ws 0 "B1" lotNumber
    let a2 := writeOptB a1.1 a1.2 "B2" inspectionDate
    let a3 := writeOptB a2.1 a2.2 "B3" lotPfx
    let a4 := writeValueCells a3 ((distanceValues.map Value.num).zip distanceCells)
    let a5 := writeValueCells a4 ((intCircleValues.map Value.num).zip intCircleCells)
    some a5

/-- Input of claim C2: four DISTANCE records with ids 1..4 and the X values
of the claim (for a DISTANCE line the X column is the second positional
value after the id and the type). -/
def c2Input : String :=
  "1;DISTANCE;;-1.235\n2;DISTANCE;;2.004\n3;DISTANCE;;0.5\n4;DISTANCE;;9.999"

/-! ## Association-list lemmas -/

theorem assocLookup_assocSet_self {κ α : Type} [DecidableEq κ]
    (l : List (κ × α)) (k : κ) (v : α) :
    assocLookup (assocSet l k v) k = some v := by
  induction l with
  | nil => simp [assocSet, assocLookup]
  | cons p rest ih =>
    obtain ⟨k', v'⟩ := p
    by_cases h : k' = k <;> simp [assocSet, assocLookup, h, ih]

theorem assocLookup_assocSet_ne {κ α : Type} [DecidableEq κ]
    (l : List (κ × α)) (k k2 : κ) (v : α) (h : k2 ≠ k) :
    assocLookup (assocSet l k v) k2 = assocLookup l k2 := by
  induction l with
  | nil =>
    simp only [assocSet, assocLookup]
    rw [if_neg (fun hh => h (Eq.symm hh))]
  | cons p rest ih =>
    obtain ⟨k', v'⟩ := p
    by_cases hk : k' = k
    · subst hk
      simp only [assocSet, if_pos rfl, assocLookup]
      rw [if_neg (fun hh => h (Eq.symm hh)), if_neg (fun hh => h (Eq.symm hh))]
    · simp only [assocSet, if_neg hk, assocLookup]
      by_cases h2 : k' = k2
      · rw [if_pos h2, if_pos h2]
      · rw [if_neg h2, if_neg h2]
        exact ih

theorem assocContains_assocSet_of {κ α : Type} [DecidableEq κ]
    (l : List (κ × α)) (k k2 : κ) (v : α) (h : assocContains l k2 = true) :
    assocContains (assocSet l k v) k2 = true := by
  by_cases hk : k2 = k
  · subst hk
    simp [assocContains, assocLookup_assocSet_self]
  · simpa [assocContains, assocLookup_assocSet_ne l k k2 v hk] using h

theorem assignVal_contains (cols : List String) (row : Row) (p : Nat × String)
    (k : String) (h : assocContains row k = true) :
    assocContains (assignVal cols row p) k = true := by
  unfold assignVal
  split
  · split <;> exact assocContains_assocSet_of _ _ _ _ h
  · exact h

theorem foldl_assignVal_contains (cols : List String) (k : String) :
    ∀ (l : List (Nat × String)) (row : Row),
      assocContains row k = true →
      assocContains (l.foldl (assignVal cols) row) k = true := by
  intro l
  induction l with
  | nil => exact fun row h => h
  | cons p t ih =>
    intro row h
    exact ih (assignVal cols row p) (assignVal_contains cols row p k h)

theorem assignVal_lookup_ne (cols : List String) (row : Row) (p : Nat × String)
    (k : String) (h : cols.getD p.1 "" ≠ k) :
    assocLookup (assignVal cols row p) k = assocLookup row k := by
  unfold assignVal
  split
  · split <;> exact assocLookup_assocSet_ne _ _ _ _ (fun hh => h hh.symm)
  · rfl

theorem foldl_assignVal_lookup_ne (cols : List String) (k : String) :
    ∀ (l : List (Nat × String)) (row : Row),
      (∀ p ∈ l, cols.getD p.1 "" ≠ k) →
      assocLookup (l.foldl (assignVal cols) row) k = assocLookup row k := by
  intro l
  induction l with
  | nil => exact fun row _ => rfl
  | cons p t ih =>
    intro row h
    rw [List.foldl_cons, ih (assignVal cols row p) (fun q hq => h q (by simp [hq])),
      assignVal_lookup_ne cols row p k (h p (by simp))]

/-! ## parse_data invariants -/

theorem parse_row_keys (content : String) (row : Row) (h : row ∈ parse_data content) :
    assocContains row "ID" = true ∧ assocContains row "Type" = true := by
  unfold parse_data at h
  obtain ⟨line, -, hline⟩ := List.mem_filterMap.mp h
  unfold parseLine at hline
  split at hline
  · exact absurd hline (by simp)
  · split at hline
    · exact absurd hline (by simp)
    · injection hline with hrow
      subst hrow
      unfold parseRow
      constructor <;>
        exact foldl_assignVal_contains _ _ _ _ (by simp [assocContains, assocLookup])

theorem collectAux_ok :
    ∀ (data : List Row),
      (∀ row ∈ data, rowExtractSafe row = true ∧ assocContains row "Type" = true) →
      ∀ ds ics, ∃ p, collectAux data ds ics = Except.ok p := by
  intro data
  induction data with
  | nil => exact fun _ ds ics => ⟨(ds, ics), rfl⟩
  | cons item rest ih =>
    intro h ds ics
    obtain ⟨hsafe, hty⟩ := h item (List.mem_cons_self item rest)
    have hrest := fun r hr => h r (List.mem_cons_of_mem _ hr)
    simp only [assocContains] at hty
    obtain ⟨ty, hty2⟩ := Option.isSome_iff_exists.mp hty
    simp only [collectAux, hty2]
    by_cases hd : valueEqStr ty "DISTANCE" = true
    · rw [if_pos hd]
      cases hx : assocLookup item "X" with
      | none =>
        cases hid : assocLookup item "ID" with
        | none => exact ih hrest ds ics
        | some idv => exact ih hrest ds ics
      | some x =>
        cases hid : assocLookup item "ID" with
        | none => exact ih hrest ds ics
        | some idv =>
          cases x with
          | num q => exact ih hrest _ _
          | str s =>
            simp only [rowExtractSafe, hty2, if_pos hd, hx, hid] at hsafe
            exact absurd hsafe (by decide)
    · rw [if_neg hd]
      by_cases hic : valueEqStr ty "INT-CIRCLE" = true
      · rw [if_pos hic]
        cases hr : assocLookup item "Radius" with
        | none => exact ih hrest ds ics
        | some x =>
          cases x with
          | num q => exact ih hrest _ _
          | str s =>
            simp only [rowExtractSafe, hty2, if_neg hd, if_pos hic, hr] at hsafe
            exact absurd hsafe (by decide)
      · rw [if_neg hic]
        exact ih hrest ds ics

/-! ## Lemmas about the date matcher -/

theorem takeDigits_eq_some :
    ∀ (n : Nat) (l r : List Char),
      takeDigits n l = some r ↔
        ∃ pre : List Char,
          pre.length = n ∧ pre.all Char.isDigit = true ∧ l = pre ++ r := by
  intro n
  induction n with
  | zero =>
    intro l r
    constructor
    · intro h
      refine ⟨[], rfl, rfl, ?_⟩
      simpa [takeDigits] using h
    · rintro ⟨pre, hlen, -, rfl⟩
      obtain rfl := List.length_eq_zero.mp hlen
      simp [takeDigits]
  | succ n ih =>
    intro l r
    cases l with
    | nil =>
      constructor
      · intro h
        exact absurd h (by simp [takeDigits])
      · rintro ⟨pre, hlen, -, heq⟩
        cases pre with
        | nil => simp at hlen
        | cons a b => simp at heq
    | cons c t =>
      simp only [takeDigits]
      by_cases hc : c.isDigit = true
      · rw [if_pos hc, ih]
        constructor
        · rintro ⟨pre, hlen, hdig, rfl⟩
          exact ⟨c :: pre, by simp [hlen], by simp [hc, hdig], rfl⟩
        · rintro ⟨pre, hlen, hdig, heq⟩
          cases pre with
          | nil => simp at hlen
          | cons a b =>
            obtain ⟨rfl, rfl⟩ : a = c ∧ t = b ++ r := by
              have := heq
              simp only [List.cons_append, List.cons.injEq] at this
              exact ⟨this.1.symm, this.2⟩
            simp only [List.all_cons, Bool.and_eq_true] at hdig
            exact ⟨b, by simpa using hlen, hdig.2, rfl⟩
      · rw [if_neg hc]
        constructor
        · intro h
          exact absurd h (by simp)
        · rintro ⟨pre, hlen, hdig, heq⟩
          cases pre with
          | nil => simp at hlen
          | cons a b =>
            obtain rfl : a = c := by
              simp only [List.cons_append, List.cons.injEq] at heq
              exact heq.1.symm
            simp only [List.all_cons, Bool.and_eq_true] at hdig
            exact absurd hdig.1 hc

theorem matchSlash_eq_some (l r : List Char) :
    matchSlash l = some r ↔ l = '/' :: r := by
  cases l with
  | nil => simp [matchSlash]
  | cons c t =>
    simp only [matchSlash]
    by_cases hc : c = '/'
    · subst hc
      simp
    · rw [if_neg hc]
      simp [hc]

theorem matchesDate_iff (l : List Char) :
    matchesDate l = true ↔
      ∃ y m d : List Char,
        l = y ++ '/' :: (m ++ '/' :: d) ∧
        y.length = 4 ∧ y.all Char.isDigit = true ∧
        m.length = 2 ∧ m.all Char.isDigit = true ∧
        d.length = 2 ∧ d.all Char.isDigit = true := by
  unfold matchesDate
  constructor
  · intro h
    split at h
    · exact absurd h (by decide)
    · rename_i r1 h4
      split at h
      · exact absurd h (by decide)
      · rename_i r2 h5
        split at h
        · exact absurd h (by decide)
        · rename_i r3 h6
          split at h
          · exact absurd h (by decide)
          · rename_i r4 h7
            split at h
            · exact absurd h (by decide)
            · rename_i r5 h8
              simp only [List.isEmpty_iff] at h
              subst h
              obtain ⟨y, hy4, hyd, rfl⟩ := (takeDigits_eq_some 4 _ _).mp h4
              obtain rfl := (matchSlash_eq_some _ _).mp h5
              obtain ⟨m, hm2, hmd, rfl⟩ := (takeDigits_eq_some 2 _ _).mp h6
              obtain rfl := (matchSlash_eq_some _ _).mp h7
              obtain ⟨d, hd2, hdd, rfl⟩ := (takeDigits_eq_some 2 _ _).mp h8
              exact ⟨y, m, d ++ [], by simp, hy4, hyd, hm2, hmd, by simpa using hd2,
                by simpa using hdd⟩
  · rintro ⟨y, m, d, rfl, hy4, hyd, hm2, hmd, hd2, hdd⟩
    have e1 : takeDigits 4 (y ++ '/' :: (m ++ '/' :: d)) = some ('/' :: (m ++ '/' :: d)) :=
      (takeDigits_eq_some 4 _ _).mpr ⟨y, hy4, hyd, rfl⟩
    have e2 : matchSlash ('/' :: (m ++ '/' :: d)) = some (m ++ '/' :: d) :=
      (matchSlash_eq_some _ _).mpr rfl
    have e3 : takeDigits 2 (m ++ '/' :: d) = some ('/' :: d) :=
      (takeDigits_eq_some 2 _ _).mpr ⟨m, hm2, hmd, rfl⟩
    have e4 : matchSlash ('/' :: d) = some d :=
      (matchSlash_eq_some _ _).mpr rfl
    have e5 : takeDigits 2 d = some [] :=
      (takeDigits_eq_some 2 _ _).mpr ⟨d, hd2, hdd, by simp⟩
    simp only [e1, e2, e3, e4, e5, List.isEmpty_nil]

/-! ## Lemmas for the distance reordering refinement -/

theorem findFirstMatch_append (tid : String) (a b : List (Value × Q)) :
    findFirstMatch tid (a ++ b) = (findFirstMatch tid a).or (findFirstMatch tid b) := by
  induction a with
  | nil => simp [findFirstMatch]
  | cons p t ih =>
    obtain ⟨idv, v⟩ := p
    simp only [List.cons_append, findFirstMatch]
    by_cases h : idEqStr idv tid = true
    · rw [if_pos h, if_pos h]
      rfl
    · rw [if_neg h, if_neg h]
      exact ih

theorem isDistTargetRow_false_of_type (tid : String) (row : Row) (ty : Value)
    (hty : assocLookup row "Type" = some ty)
    (hd : ¬ valueEqStr ty "DISTANCE" = true) :
    isDistTargetRow tid row = false := by
  unfold isDistTargetRow
  rw [hty]
  simp [Bool.eq_false_iff.mpr hd]

theorem specDistValue_cons (item : Row) (rest : List Row) (tid : String) :
    specDistValue (item :: rest) tid =
      if isDistTargetRow tid item then
        (match assocLookup item "X" with
         | some (Value.num q) => some (pyRound2 q.qabs)
         | _ => none)
      else specDistValue rest tid := by
  unfold specDistValue
  by_cases hp : isDistTargetRow tid item = true
  · rw [List.find?_cons_of_pos _ hp, if_pos hp]
    rfl
  · rw [List.find?_cons_of_neg _ (by simpa using hp), if_neg hp]

theorem collectAux_dist_spec :
    ∀ (data : List Row) (ds : List (Value × Q)) (ics : List Q)
      (D : List (Value × Q)) (I : List Q),
      collectAux data ds ics = Except.ok (D, I) →
      ∀ tid, findFirstMatch tid D =
        (findFirstMatch tid ds).or (specDistValue data tid) := by
  intro data
  induction data with
  | nil =>
    intro ds ics D I h tid
    simp only [collectAux, Except.ok.injEq, Prod.mk.injEq] at h
    obtain ⟨rfl, rfl⟩ := h
    simp [specDistValue]
  | cons item rest ih =>
    intro ds ics D I h tid
    simp only [collectAux] at h
    split at h
    · exact absurd h (by simp)
    · rename_i ty hty
      split at h
      · -- DISTANCE branch
        rename_i hd
        split at h
        · -- X and ID both present
          rename_i x idv hx hid
          cases x with
          | num q =>
            have hspec := ih _ _ _ _ h tid
            rw [findFirstMatch_append, Option.or_assoc] at hspec
            rw [hspec, specDistValue_cons]
            have htarget : isDistTargetRow tid item = idEqStr idv tid := by
              unfold isDistTargetRow
              rw [hty, hid]
              simp [hd, assocContains, hx]
            have hval : findFirstMatch tid [(idv, pyRound2 q.qabs)] =
                if idEqStr idv tid then some (pyRound2 q.qabs) else none := by
              simp [findFirstMatch]
            by_cases hm : idEqStr idv tid = true
            · rw [hval, if_pos hm, htarget, if_pos hm]
              simp only [hx, Option.or_some]
            · rw [hval, if_neg hm, htarget, if_neg hm, Option.none_or]
          | str s => exact absurd h (by simp)
        · -- X or ID missing
          rename_i hmiss
          have hrow : isDistTargetRow tid item = false := by
            unfold isDistTargetRow
            rw [hty]
            cases hx : assocLookup item "X" with
            | none => simp [assocContains, hx]
            | some x =>
              cases hid : assocLookup item "ID" with
              | none => simp [assocContains, hx, hid]
              | some idv => exact (hmiss x idv hx hid).elim
          rw [ih _ _ _ _ h tid, specDistValue_cons, if_neg (by simp [hrow])]
      · -- not DISTANCE
        rename_i hd
        have hrow : isDistTargetRow tid item = false :=
          isDistTargetRow_false_of_type tid item ty hty hd
        have hskip : specDistValue (item :: rest) tid = specDistValue rest tid := by
          rw [specDistValue_cons, if_neg (by simp [hrow])]
        split at h
        · rename_i hic
          split at h
          · rename_i q hr
            rw [ih _ _ _ _ h tid, hskip]
          · exact absurd h (by simp)
          · rw [ih _ _ _ _ h tid, hskip]
        · rw [ih _ _ _ _ h tid, hskip]

theorem find?_eq_of_mem_unique {α : Type} (p : α → Bool) (a : α) (hp : p a = true) :
    ∀ l : List α, a ∈ l → (∀ b ∈ l, p b = true → b = a) → l.find? p = some a := by
  intro l
  induction l with
  | nil => intro h; cases h
  | cons x t ih =>
    intro hmem huniq
    by_cases hx : p x = true
    · rw [List.find?_cons_of_pos _ hx, huniq x (List.mem_cons_self x t) hx]
    · rw [List.find?_cons_of_neg _ (by simpa using hx)]
      rcases List.mem_cons.mp hmem with rfl | hmem2
      · exact absurd hp hx
      · exact ih hmem2 (fun b hb hpb => huniq b (List.mem_cons_of_mem _ hb) hpb)

theorem zip_append_of_le {α β : Type} :
    ∀ (l : List α) (c e : List β), l.length ≤ c.length → l.zip (c ++ e) = l.zip c := by
  intro l
  induction l with
  | nil => intro c e _; simp
  | cons x t ih =>
    intro c e h
    cases c with
    | nil => simp at h
    | cons y u =>
      simp only [List.cons_append, List.zip_cons_cons]
      rw [ih u e (by simpa using h)]

/-! ## Claim theorems -/

/-- C1: whenever extraction succeeds on a record list, the distance_values
sequence is obtained by iterating the fixed priority list 3, 2, 1, 4; each
target id contributes round(abs(X), 2) of the first DISTANCE record
carrying an X and an ID whose string form equals that id, ids with no
matching record contribute nothing, and the sequence has length at most
four. -/
theorem claim_C1_priority_reorder :
    ∀ (data : List Row) (dv icv : List Q),
      extract_target_values data = Except.ok (dv, icv) →
      dv = specDistanceValues data ∧ dv.length ≤ 4 := by
  intro data dv icv h
  unfold extract_target_values at h
  split at h
  · exact absurd h (by simp)
  · rename_i ds ics hc
    simp only [Except.ok.injEq, Prod.mk.injEq] at h
    obtain ⟨hdv, -⟩ := h
    subst hdv
    have hds := collectAux_dist_spec data [] [] ds ics hc
    have hfun : (fun tid => findFirstMatch tid ds) = specDistValue data := by
      funext tid
      rw [hds tid]
      rfl
    constructor
    · unfold orderDistances specDistanceValues
      rw [hfun]
    · unfold orderDistances
      simpa using
        List.length_filterMap_le (fun tid => findFirstMatch tid ds) ["3", "2", "1", "4"]

/-- C1 witness at the concrete input of claim C2. -/
theorem claim_C1_witness :
    [pyFloat "0.5", pyFloat "2.0", pyFloat "1.24", pyFloat "10.0"] =
        specDistanceValues (parse_data c2Input) ∧
      ([pyFloat "0.5", pyFloat "2.0", pyFloat "1.24", pyFloat "10.0"]).length ≤ 4 :=
  claim_C1_priority_reorder (parse_data c2Input)
    [pyFloat "0.5", pyFloat "2.0", pyFloat "1.24", pyFloat "10.0"] [] (by rfl)

/-- C5: a write to a cell reference lying inside a merged region of the
worksheet goes to the top-left anchor cell of that region, the call reports
success (the redirection is surfaced as a warning, not an error), and
reading the anchor cell of the resulting worksheet yields the written value
(serialization preserves the cell map). -/
theorem claim_C5_merged_write :
    ∀ (ws : Worksheet) (ref : String) (v : Value) (rc : Nat × Nat) (mr : MergedRange),
      parseCellRef ref = some rc →
      mr ∈ ws.merged →
      mr.containsCell rc = true →
      (∀ mr2 ∈ ws.merged, mr2.containsCell rc = true → mr2 = mr) →
      write_to_cell ws ref v = (setCellVal ws mr.anchor v, true) ∧
        getCellVal (write_to_cell ws ref v).1 mr.anchor = some v := by
  intro ws ref v rc mr href hmem hcont huniq
  have hmain : write_to_cell ws ref v = (setCellVal ws mr.anchor v, true) := by
    unfold write_to_cell
    simp only [href]
    by_cases hm : isMergedCellAt ws rc = true
    · rw [if_pos hm,
        find?_eq_of_mem_unique (fun r => r.containsCell rc) mr hcont ws.merged hmem huniq]
    · rw [if_neg hm]
      have hanchor : rc = mr.anchor := by
        by_contra hne
        apply hm
        unfold isMergedCellAt
        exact List.any_eq_true.mpr ⟨mr, hmem, by simp [hcont, hne]⟩
      rw [hanchor]
  refine ⟨hmain, ?_⟩
  rw [hmain]
  exact assocLookup_assocSet_self ws.cells mr.anchor v

/-- C5 witness: a 2-by-2 merged region anchored at A1, written through the
non-anchor reference B2. -/
theorem claim_C5_witness :
    write_to_cell ⟨[], [⟨1, 1, 2, 2⟩]⟩ "B2" (Value.num ⟨5, 1⟩) =
        (setCellVal ⟨[], [⟨1, 1, 2, 2⟩]⟩ (MergedRange.anchor ⟨1, 1, 2, 2⟩)
          (Value.num ⟨5, 1⟩), true) ∧
      getCellVal (write_to_cell ⟨[], [⟨1, 1, 2, 2⟩]⟩ "B2" (Value.num ⟨5, 1⟩)).1
          (MergedRange.anchor ⟨1, 1, 2, 2⟩) = some (Value.num ⟨5, 1⟩) :=
  claim_C5_merged_write ⟨[], [⟨1, 1, 2, 2⟩]⟩ "B2" (Value.num ⟨5, 1⟩) (2, 2)
    ⟨1, 1, 2, 2⟩ (by decide) (by decide) (by decide) (by decide)

/-- C6: a failure to write one individual cell (an unparsable reference) is
absorbed by the writer: the pair changes nothing and the loop continues
with exactly the remaining pairs, and update_excel_file on any loaded
workbook always returns a serialized result. -/
theorem claim_C6_cell_failure_nonfatal :
    (∀ (ws : Worksheet) (n : Nat) (v : Value) (ref : String)
        (rest : List (Value × String)),
      pyStrip ref ≠ "" →
      parseCellRef (pyStrip ref) = none →
      writeValueCells (ws, n) ((v, ref) :: rest) = writeValueCells (ws, n) rest)
    ∧ (∀ (wb : Workbook) (dv iv : List Q) (dc ic : List String)
        (sn ln ind lp : Option String),
      (update_excel_file (some wb) dv iv dc ic sn ln ind lp).isSome = true) := by
  constructor
  · intro ws n v ref rest hne hbad
    have hwc : write_to_cell ws (pyStrip ref) v = (ws, false) := by
      unfold write_to_cell
      rw [hbad]
    simp [writeValueCells, hne, hwc]
  · intro wb dv iv dc ic sn ln ind lp
    rfl

/-- C6 witness: an invalid reference in front of a valid pair. -/
theorem claim_C6_witness :
    writeValueCells (⟨[], []⟩, 0)
        [(Value.num ⟨1, 1⟩, "no good"), (Value.num ⟨2, 1⟩, "A1")] =
        writeValueCells (⟨[], []⟩, 0) [(Value.num ⟨2, 1⟩, "A1")] ∧
      (update_excel_file (some ⟨[("sheet", ⟨[], []⟩)], 0⟩) [⟨1, 1⟩] [] ["A1"] []
          none none none none).isSome = true :=
  ⟨claim_C6_cell_failure_nonfatal.1 ⟨[], []⟩ 0 (Value.num ⟨1, 1⟩) "no good"
      [(Value.num ⟨2, 1⟩, "A1")] (by decide) (by decide),
    claim_C6_cell_failure_nonfatal.2 ⟨[("sheet", ⟨[], []⟩)], 0⟩ [⟨1, 1⟩] [] ["A1"] []
      none none none none⟩

/-- C7: the paired writes are positional and truncated: with a cell list at
least as long as the value list, appended extra cells change nothing; the
number of pairs considered is exactly the minimum of the two lengths; and a
length mismatch never produces an exception (the writer always returns). -/
theorem claim_C7_positional_truncation :
    (∀ (values : List Q) (cells extra : List String) (ws : Worksheet) (n : Nat),
      values.length ≤ cells.length →
      writeValueCells (ws, n) ((values.map Value.num).zip (cells ++ extra)) =
        writeValueCells (ws, n) ((values.map Value.num).zip cells))
    ∧ (∀ (values : List Q) (cells : List String),
      ((values.map Value.num).zip cells).length = min values.length cells.length)
    ∧ (∀ (wb : Workbook) (dv iv : List Q) (dc ic : List String)
        (sn ln ind lp : Option String),
      update_excel_file (some wb) dv iv dc ic sn ln ind lp ≠ none) := by
  refine ⟨?_, ?_, ?_⟩
  · intro values cells extra ws n h
    rw [zip_append_of_le _ _ _ (by simpa using h)]
  · intro values cells
    simp [List.length_zip]
  · intro wb dv iv dc ic sn ln ind lp
    exact Option.some_ne_none _

/-- C7 witness: two values against three cells. -/
theorem claim_C7_witness :
    writeValueCells (⟨[], []⟩, 0)
        ((([⟨1, 1⟩, ⟨2, 1⟩] : List Q).map Value.num).zip (["A1", "A2"] ++ ["A3"])) =
        writeValueCells (⟨[], []⟩, 0)
          ((([⟨1, 1⟩, ⟨2, 1⟩] : List Q).map Value.num).zip ["A1", "A2"]) ∧
      ((([⟨1, 1⟩, ⟨2, 1⟩] : List Q).map Value.num).zip ["A1", "A2", "A3"]).length =
        min ([⟨1, 1⟩, ⟨2, 1⟩] : List Q).length ["A1", "A2", "A3"].length ∧
      update_excel_file (some ⟨[("sheet", ⟨[], []⟩)], 0⟩) [⟨1, 1⟩] [] ["A1"] []
          none none none none ≠ none :=
  ⟨claim_C7_positional_truncation.1 [⟨1, 1⟩, ⟨2, 1⟩] ["A1", "A2"] ["A3"] ⟨[], []⟩ 0
      (by decide),
    claim_C7_positional_truncation.2.1 [⟨1, 1⟩, ⟨2, 1⟩] ["A1", "A2", "A3"],
    claim_C7_positional_truncation.2.2 ⟨[("sheet", ⟨[], []⟩)], 0⟩ [⟨1, 1⟩] [] ["A1"] []
      none none none none⟩

/-- C2: on the four DISTANCE records mapping ids 1..4 to the X values
-1.235, 2.004, 0.5 and 9.999, extract_target_values returns the distance
sequence of the Python floats 0.5, 2.0, 1.24 and 10.0, that is, the ids
taken in the order 3, 2, 1, 4, each value being round(abs(x), 2) under
binary64 float rounding (and no int-circle values). -/
theorem claim_C2_concrete_extraction :
    extract_target_values (parse_data c2Input) =
      Except.ok ([pyFloat "0.5", pyFloat "2.0", pyFloat "1.24", pyFloat "10.0"], []) := by
  rfl

/-- C3 counterexample: parse_data can produce a DISTANCE record whose X
field holds a non-numeric string token, and on such a record list
extract_target_values raises (TypeError from abs on a string), refuting the
claim that extraction succeeds on every list of records parse_data can
produce. -/
theorem claim_C3_counterexample :
    extract_target_values (parse_data "1;DISTANCE;;abc") =
      Except.error PyErr.typeError := by
  rfl

/-- C3 amended: parse_data itself never raises (it is total and returns a
list for every input), and extract_target_values succeeds on every record
list produced by parse_data in which each DISTANCE record that carries both
an X and an ID has a numeric X and each INT-CIRCLE record that carries a
Radius has a numeric Radius. -/
theorem claim_C3_amended_no_raise :
    ∀ content : String,
      (∀ row ∈ parse_data content, rowExtractSafe row = true) →
      ∃ p, extract_target_values (parse_data content) = Except.ok p := by
  intro content h
  have hh : ∀ row ∈ parse_data content,
      rowExtractSafe row = true ∧ assocContains row "Type" = true :=
    fun row hr => ⟨h row hr, (parse_row_keys content row hr).2⟩
  obtain ⟨⟨ds, ics⟩, hc⟩ := collectAux_ok (parse_data content) hh [] []
  exact ⟨(orderDistances ds, ics), by simp only [extract_target_values, hc]⟩

/-- C3 amended, witness at a concrete well-formed input. -/
theorem claim_C3_amended_witness :
    (∀ row ∈ parse_data "1;DISTANCE;;1.5", rowExtractSafe row = true) ∧
      ∃ p, extract_target_values (parse_data "1;DISTANCE;;1.5") = Except.ok p :=
  ⟨by decide, claim_C3_amended_no_raise "1;DISTANCE;;1.5" (by decide)⟩

/-- C8: validate_date_format is true exactly on strings of the shape four
digits, slash, two digits, slash, two digits, with no calendar-validity
check; in particular it accepts 2025/10/07 and 2025/13/99 and rejects
2025-10-07 and the empty string.  (The tail of the source function is
truncated in src/app.py; the pattern is restored from the spec.) -/
theorem claim_C8_validate_date_format :
    (∀ s : String, validate_date_format s = true ↔ dateShape s)
    ∧ validate_date_format "2025/10/07" = true
    ∧ validate_date_format "2025-10-07" = false
    ∧ validate_date_format "" = false
    ∧ validate_date_format "2025/13/99" = true := by
  refine ⟨?_, by decide, by decide, by decide, by decide⟩
  intro s
  unfold validate_date_format
  by_cases hs : s = ""
  · subst hs
    simp only [if_pos rfl]
    constructor
    · intro h
      exact absurd h (by simp)
    · rintro ⟨y, m, d, heq, hy, -⟩
      rw [show ("" : String).toList = [] from rfl] at heq
      simp at heq
  · rw [if_neg hs]
    exact matchesDate_iff s.toList

/-- C9 counterexample: in the operative UI variant of app.py (the second
main), with a lot number and an inspection date supplied, the produced
output file is named by prepending an updated marker to the template file
name, which does not follow the literal lot-and-date pattern. -/
theorem claim_C9_counterexample :
    ¬ (updatedDownloadName "template.xlsx" =
        "水平ノズル" ++ "LOT234" ++ "全箇所測定" ++ "2025/10/07" ++ ".xlsx") := by
  decide

/-- C9 amended: the first UI variant names its output by the literal
pattern prefix, lot number, middle marker, inspection date, xlsx suffix;
the second UI variant instead names its output by prepending an updated
marker to the uploaded template file name. -/
theorem claim_C9_amended_naming :
    (∀ lotNum inspDate : String,
      dynamic_filename lotNum inspDate =
        "水平ノズル" ++ lotNum ++ "全箇所測定" ++ inspDate ++ ".xlsx")
    ∧ (∀ t : String, updatedDownloadName t = "updated_" ++ t) :=
  ⟨fun _ _ => rfl, fun _ => rfl⟩

/-- C10: every record returned by parse_data contains both the ID key
(bound to the first semicolon-separated field) and the Type key (bound to
the second); consequently the extractor's conjunction testing X and ID on a
DISTANCE record reduces to the X test alone, so the ID check never filters
out a record. -/
theorem claim_C10_rows_have_id_and_type :
    ∀ (content : String) (row : Row), row ∈ parse_data content →
      assocContains row "ID" = true ∧ assocContains row "Type" = true ∧
        (assocContains row "X" && assocContains row "ID") = assocContains row "X" := by
  intro content row h
  obtain ⟨h1, h2⟩ := parse_row_keys content row h
  exact ⟨h1, h2, by rw [h1, Bool.and_true]⟩

theorem matchesNumeric_ne_empty (s : String) (h : matchesNumeric s = true) : s ≠ "" := by
  intro hs
  subst hs
  exact absurd h (by decide)

theorem assignVal_lookup_set (cols : List String) (row : Row) (i : Nat) (v : String)
    (h1 : i < cols.length) (h2 : cols.getD i "" ≠ "") (h3 : v ≠ "")
    (h4 : matchesNumeric v = true) :
    assocLookup (assignVal cols row (i, v)) (cols.getD i "") =
      some (Value.num (pyFloat v)) := by
  unfold assignVal
  rw [if_pos ⟨h1, h2, h3⟩, if_pos h4]
  exact assocLookup_assocSet_self _ _ _

/-- C4: for every input line whose type field is CIRCLE and which carries
ten positional values after the id and the type, the parsed record's Radius
field is the ninth positional value converted to a Python float, provided
that value (stripped) matches the numeric pattern. -/
theorem claim_C4_circle_radius :
    ∀ (line idS v1 v2 v3 v4 v5 v6 v7 v8 v9 v10 : String),
      splitOnChar ';' (pyStrip line) =
        [idS, "CIRCLE", v1, v2, v3, v4, v5, v6, v7, v8, v9, v10] →
      matchesNumeric (pyStrip v9) = true →
      ∃ row, parseLine line = some row ∧
        assocLookup row "Radius" = some (Value.num (pyFloat (pyStrip v9))) := by
  intro line idS v1 v2 v3 v4 v5 v6 v7 v8 v9 v10 hsplit hnum
  have hne : pyStrip line ≠ "" := by
    intro h0
    rw [h0, show splitOnChar ';' "" = [""] from rfl] at hsplit
    simp at hsplit
  have hlen : ¬ (splitOnChar ';' (pyStrip line)).length < 2 := by
    rw [hsplit]
    simp
  refine ⟨parseRow (splitOnChar ';' (pyStrip line)), ?_, ?_⟩
  · unfold parseLine
    rw [if_neg hne, if_neg hlen]
  · rw [hsplit]
    unfold parseRow
    have hcols : colsFor (List.getD [idS, "CIRCLE", v1, v2, v3, v4, v5, v6, v7, v8,
        v9, v10] 1 "")
        ((List.map pyStrip (List.drop 2 [idS, "CIRCLE", v1, v2, v3, v4, v5, v6, v7,
          v8, v9, v10])).length) =
        ["Method", "X", "Y", "Z", "I", "J", "K", "", "Radius", "Dev"] := rfl
    have henum : (List.map pyStrip (List.drop 2 [idS, "CIRCLE", v1, v2, v3, v4, v5,
        v6, v7, v8, v9, v10])).enum =
        [(0, pyStrip v1), (1, pyStrip v2), (2, pyStrip v3), (3, pyStrip v4),
         (4, pyStrip v5), (5, pyStrip v6), (6, pyStrip v7), (7, pyStrip v8)] ++
        [(8, pyStrip v9), (9, pyStrip v10)] := rfl
    rw [hcols, henum, List.foldl_append]
    generalize List.foldl
        (assignVal ["Method", "X", "Y", "Z", "I", "J", "K", "", "Radius", "Dev"])
        [("ID", Value.str (List.getD [idS, "CIRCLE", v1, v2, v3, v4, v5, v6, v7, v8,
          v9, v10] 0 "")),
         ("Type", Value.str (List.getD [idS, "CIRCLE", v1, v2, v3, v4, v5, v6, v7,
          v8, v9, v10] 1 ""))]
        [(0, pyStrip v1), (1, pyStrip v2), (2, pyStrip v3), (3, pyStrip v4),
         (4, pyStrip v5), (5, pyStrip v6), (6, pyStrip v7), (7, pyStrip v8)] = row8
    rw [List.foldl_cons, List.foldl_cons, List.foldl_nil]
    rw [assignVal_lookup_ne _ _ (9, pyStrip v10) _
      (show List.getD ["Method", "X", "Y", "Z", "I", "J", "K", "", "Radius", "Dev"]
          9 "" ≠ "Radius" by decide)]
    exact assignVal_lookup_set
      ["Method", "X", "Y", "Z", "I", "J", "K", "", "Radius", "Dev"] row8 8
      (pyStrip v9) (by norm_num) (by decide) (matchesNumeric_ne_empty _ hnum) hnum

/-- C4 witness at a concrete CIRCLE line. -/
theorem claim_C4_witness :
    ∃ row, parseLine "17;CIRCLE;M;1;2;3;4;5;6;;7.5;0.1" = some row ∧
      assocLookup row "Radius" = some (Value.num (pyFloat (pyStrip "7.5"))) :=
  claim_C4_circle_radius "17;CIRCLE;M;1;2;3;4;5;6;;7.5;0.1"
    "17" "M" "1" "2" "3" "4" "5" "6" "" "7.5" "0.1" (by decide) (by decide)

/-- C10 witness at a concrete parsed record. -/
theorem claim_C10_witness :
    assocContains [("ID", Value.str "1"), ("Type", Value.str "DISTANCE"),
        ("X", Value.str "abc")] "ID" = true ∧
      assocContains [("ID", Value.str "1"), ("Type", Value.str "DISTANCE"),
        ("X", Value.str "abc")] "Type" = true ∧
      (assocContains [("ID", Value.str "1"), ("Type", Value.str "DISTANCE"),
          ("X", Value.str "abc")] "X" &&
        assocContains [("ID", Value.str "1"), ("Type", Value.str "DISTANCE"),
          ("X", Value.str "abc")] "ID") =
        assocContains [("ID", Value.str "1"), ("Type", Value.str "DISTANCE"),
          ("X", Value.str "abc")] "X" :=
  claim_C10_rows_have_id_and_type "1;DISTANCE;;abc" _ (by decide)

end App
